import Mathlib

/-!
Verification development for the slack-deploy-bot repository.

The TypeScript sources are shallowly embedded as pure Lean functions:

* `jsParseInt` models JavaScript `parseInt(s, 10)`;
* `parseFormBody` / `formGet` model WHATWG `URLSearchParams` over a raw
  form-encoded body (percent escapes are decoded at the code-point level);
* `jsIn` models the JavaScript `in` operator on a plain object literal,
  including the inherited keys of `Object.prototype`;
* external effects (the system clock, HMAC-SHA256, the Cloud Build API
  response, the log sink) enter as explicit parameters, so every function
  of the repository becomes a total, executable Lean definition.
-/

/-- Numeric value of a list of decimal digit characters. -/
def digitsVal (ds : List Char) : Nat :=
  ds.foldl (fun acc c => acc * 10 + (c.toNat - 48)) 0

/-- Longest decimal-digit prefix, `none` when there is no digit
(the `NaN` case of `parseInt`). -/
def parseDigits (cs : List Char) : Option Nat :=
  let ds := cs.takeWhile Char.isDigit
  if ds.isEmpty then none else some (digitsVal ds)

/-- Model of JavaScript `parseInt(s, 10)`: skip leading whitespace, read an
optional sign and then the longest digit prefix; `none` models `NaN`. -/
def jsParseInt (s : String) : Option Int :=
  match s.data.dropWhile Char.isWhitespace with
  | '-' :: rest => (parseDigits rest).map (fun n => -(n : Int))
  | '+' :: rest => (parseDigits rest).map (fun n => (n : Int))
  | rest => (parseDigits rest).map (fun n => (n : Int))

/-- Value of a hexadecimal digit character. -/
def hexVal (c : Char) : Option Nat :=
  if '0' ≤ c ∧ c ≤ '9' then some (c.toNat - 48)
  else if 'a' ≤ c ∧ c ≤ 'f' then some (c.toNat - 87)
  else if 'A' ≤ c ∧ c ≤ 'F' then some (c.toNat - 55)
  else none

/-- `application/x-www-form-urlencoded` value decoding: `+` becomes a space
and `%XY` with two hex digits becomes the code point `16*X + Y`; a malformed
escape stays literal and scanning resumes at the following character.
Multi-byte UTF-8 escapes are modelled as individual code points, which
agrees with the browser decoding on ASCII payloads.  The structural fuel
keeps the definition kernel-reducible. -/
def percentPlusDecodeAux : Nat → List Char → List Char
  | 0, _ => []
  | _ + 1, [] => []
  | n + 1, '+' :: rest => ' ' :: percentPlusDecodeAux n rest
  | n + 1, '%' :: c1 :: c2 :: rest2 =>
    match hexVal c1, hexVal c2 with
    | some hi, some lo => Char.ofNat (16 * hi + lo) :: percentPlusDecodeAux n rest2
    | _, _ => '%' :: percentPlusDecodeAux n (c1 :: c2 :: rest2)
  | n + 1, c :: rest => c :: percentPlusDecodeAux n rest

/-- Decoding of a whole token: the fuel is the character count, an upper
bound on the number of steps since every step consumes at least one
character, so the fuel never runs out. -/
def percentPlusDecode (cs : List Char) : List Char :=
  percentPlusDecodeAux cs.length cs

/-- Decode one form-encoded token to a string. -/
def formDecode (s : String) : String :=
  String.mk (percentPlusDecode s.data)

/-- JavaScript `String.prototype.trim`: drop whitespace from both ends. -/
def jsTrim (s : String) : String :=
  String.mk (((s.data.dropWhile Char.isWhitespace).reverse.dropWhile
    Char.isWhitespace).reverse)

/-- JavaScript `String.prototype.toLowerCase` on the ASCII range. -/
def jsToLower (s : String) : String :=
  String.mk (s.data.map Char.toLower)

/-- Split a character list at every occurrence of the separator, keeping
empty segments (the behaviour of splitting on a one-character string). -/
def splitOnChar (c : Char) : List Char → List (List Char)
  | [] => [[]]
  | x :: rest =>
    if x = c then [] :: splitOnChar c rest
    else
      match splitOnChar c rest with
      | [] => [[x]]
      | seg :: segs => (x :: seg) :: segs

/-- Split a character list at every character satisfying the predicate,
keeping empty segments (the splitting underlying `split(/\s+/)`). -/
def splitByPred (p : Char → Bool) : List Char → List (List Char)
  | [] => [[]]
  | x :: rest =>
    if p x then [] :: splitByPred p rest
    else
      match splitByPred p rest with
      | [] => [[x]]
      | seg :: segs => (x :: seg) :: segs

/-- Model of the WHATWG `URLSearchParams` string constructor: strip one
leading `?`, split on `&`, skip empty segments, split each segment at the
first `=` (a missing `=` yields the empty value; later `=` belong to the
value) and decode both sides. -/
def parseFormBody (init : String) : List (String × String) :=
  let s := match init.data with
    | '?' :: rest => rest
    | cs => cs
  (splitOnChar '&' s).filterMap (fun seg =>
    if seg.isEmpty then none
    else
      let name := seg.takeWhile (fun ch => ch ≠ '=')
      match seg.dropWhile (fun ch => ch ≠ '=') with
      | [] => some (String.mk (percentPlusDecode name), "")
      | _ :: value =>
        some (String.mk (percentPlusDecode name), String.mk (percentPlusDecode value)))

/-- Model of `URLSearchParams.get`: the value of the first pair with the
given name, `none` when the parameter is absent (JavaScript `null`). -/
def formGet (body name : String) : Option String :=
  ((parseFormBody body).find? (fun p => p.1 = name)).map (fun p => p.2)

/-- The property keys inherited from `Object.prototype`, all visible to the
JavaScript `in` operator on a plain object literal. -/
def objectProtoKeys : List String :=
  ["constructor", "hasOwnProperty", "isPrototypeOf", "propertyIsOwnEnumerable",
   "toLocaleString", "toString", "valueOf", "__proto__", "__defineGetter__",
   "__defineSetter__", "__lookupGetter__", "__lookupSetter__"]

/-- Model of `key in obj` for a plain object literal with own keys
`ownKeys`: the `in` operator also looks up the prototype chain. -/
def jsIn (key : String) (ownKeys : List String) : Bool :=
  ownKeys.contains key || objectProtoKeys.contains key

/-- Model of JavaScript `String.prototype.includes` for a non-empty
pattern: `pat` occurs as a contiguous substring of `s`. -/
def strIncludes (s pat : String) : Bool :=
  (List.range (s.data.length + 1)).any (fun i => pat.data.isPrefixOf (s.data.drop i))

-- ===== result.ts =====

/-- `Result<T, E>` from `src/result.ts`. -/
inductive Result (T E : Type) where
  | ok (value : T)
  | err (error : E)
deriving DecidableEq

-- ===== types.ts =====

/-- `SlackSlashCommand` from `src/types.ts`. -/
structure SlackSlashCommand where
  token : String
  team_id : String
  team_domain : String
  channel_id : String
  channel_name : String
  user_id : String
  user_name : String
  command : String
  text : String
  response_url : String
  trigger_id : String
deriving DecidableEq

/-- `SlackResponse` from `src/types.ts`: ephemeral or in-channel. -/
inductive SlackResponse where
  | ephemeral (text : String)
  | inChannel (text : String)
deriving DecidableEq

/-- `VerificationResult` from `src/types.ts`. -/
inductive VerificationResult where
  | valid
  | invalid (reason : String)
deriving DecidableEq

/-- `ParseErrorCode` from `src/types.ts`. -/
inductive ParseErrorCode where
  | MISSING_SERVICE
  | MISSING_ENV
  | INVALID_SERVICE
  | INVALID_ENV
deriving DecidableEq

/-- `ParseError` from `src/types.ts`. -/
structure ParseError where
  code : ParseErrorCode
  message : String
deriving DecidableEq

/-- `CloudBuildErrorCode` from `src/types.ts`. -/
inductive CloudBuildErrorCode where
  | INVALID_RESPONSE
  | TRIGGER_NOT_FOUND
  | PERMISSION_DENIED
  | UNKNOWN_ERROR
deriving DecidableEq

/-- A JavaScript value thrown by the Cloud Build client library: either an
`Error` instance with a message, or any other value with its string
representation (`String(error)`). -/
inductive JsError where
  | errorObj (message : String)
  | nonError (stringRepr : String)
deriving DecidableEq

/-- `CloudBuildError` from `src/types.ts`. -/
structure CloudBuildError where
  code : CloudBuildErrorCode
  message : String
  originalError : Option JsError
deriving DecidableEq

/-- `BuildResult` from `src/types.ts`. -/
structure BuildResult where
  buildId : String
  logUrl : String
  projectId : String
deriving DecidableEq

-- ===== config.ts =====

/-- The environment variables read by `src/config.ts`; `none` models an
undefined variable. -/
structure Env where
  slackSigningSecret : Option String
  allowedUsers : Option String
  stagingProjectId : Option String
  prodProjectId : Option String
deriving DecidableEq

/-- One entry of the `SERVICES` table. -/
structure ServiceConfig where
  triggerId : String
  displayName : String
deriving DecidableEq

/-- The static `SERVICES` table of `src/config.ts`, as an ordered
association list (own enumerable keys in declaration order). -/
def SERVICES : List (String × ServiceConfig) :=
  [("backend-api", ⟨"deploy-backend-api", "Backend API"⟩),
   ("lexolve-client", ⟨"deploy-lexolve-client", "Lexolve Client"⟩),
   ("website", ⟨"deploy-lexolve-website", "Lexolve Website"⟩),
   ("advokatt", ⟨"deploy-advokatt", "Advokatt"⟩),
   ("langgraph-agent", ⟨"deploy-langgraph-agent", "LangGraph Agent"⟩)]

/-- `getValidServices`: the own keys of `SERVICES`. -/
def getValidServices : List String :=
  SERVICES.map (fun p => p.1)

/-- `isValidService`: the source evaluates `value in SERVICES`, so the
JavaScript `in` operator also accepts the keys inherited from
`Object.prototype`. -/
def isValidService (value : String) : Bool :=
  jsIn value getValidServices

/-- `getServiceConfig` (the TypeScript signature restricts the argument to
a table key, on which the lookup always succeeds; the default is never
reached on those keys). -/
def getServiceConfig (service : String) : ServiceConfig :=
  ((SERVICES.find? (fun p => p.1 = service)).map (fun p => p.2)).getD ⟨"", ""⟩

/-- One entry of the `ENVIRONMENTS` table. -/
structure EnvironmentConfig where
  projectId : String
  displayName : String
deriving DecidableEq

/-- The `ENVIRONMENTS` table of `src/config.ts`; the project ids come from
the environment with `?? ''` defaulting. -/
def ENVIRONMENTS (env : Env) : List (String × EnvironmentConfig) :=
  [("staging", ⟨env.stagingProjectId.getD "", "Staging"⟩),
   ("prod", ⟨env.prodProjectId.getD "", "Production"⟩)]

/-- `getValidEnvironments`: the own keys of `ENVIRONMENTS`. -/
def getValidEnvironments : List String :=
  ["staging", "prod"]

/-- `isValidEnvironment`: again the JavaScript `in` operator, prototype
chain included. -/
def isValidEnvironment (value : String) : Bool :=
  jsIn value getValidEnvironments

/-- `getEnvironmentConfig`. -/
def getEnvironmentConfig (env : Env) (environment : String) : EnvironmentConfig :=
  (((ENVIRONMENTS env).find? (fun p => p.1 = environment)).map (fun p => p.2)).getD ⟨"", ""⟩

/-- `getHelpMessage` from `src/config.ts`. -/
def getHelpMessage (env : Env) : String :=
  let serviceList := String.intercalate "\n"
    (SERVICES.map (fun p => "  • `" ++ p.1 ++ "` - " ++ p.2.displayName))
  let envList := String.intercalate "\n"
    ((ENVIRONMENTS env).map (fun p => "  • `" ++ p.1 ++ "` - " ++ p.2.displayName))
  ":rocket: *Deploy Bot Help*\n\n" ++
  "*Usage:* `/deploy <service> <environment>`\n\n" ++
  "*Available services:*\n" ++ serviceList ++ "\n\n" ++
  "*Available environments:*\n" ++ envList ++ "\n\n" ++
  "*Examples:*\n" ++
  "  • `/deploy backend-api staging`\n" ++
  "  • `/deploy lexolve-client prod`\n\n" ++
  "*Other commands:*\n" ++
  "  • `/deploy help` - Show this help message\n" ++
  "  • `/deploy list` - List available services"

/-- `parseAllowedUsers` from `src/config.ts`: split the variable on commas,
trim each entry and drop the empty ones; an undefined or empty variable
(falsy in the source's `if (!envVar)`) yields the empty list. -/
def parseAllowedUsers (envVar : Option String) : List String :=
  match envVar with
  | none => []
  | some s =>
    if s = "" then []
    else (((splitOnChar ',' s.data).map (fun cs => jsTrim (String.mk cs))).filter
      (fun id => id.length > 0))

/-- The `ALLOWED_USERS` constant, parsed once at process start. -/
def ALLOWED_USERS (env : Env) : List String :=
  parseAllowedUsers env.allowedUsers

/-- The `SLACK_SIGNING_SECRET` constant (`?? ''` defaulting). -/
def SLACK_SIGNING_SECRET (env : Env) : String :=
  env.slackSigningSecret.getD ""

/-- `ConfigValidation` from `src/config.ts`. -/
structure ConfigValidation where
  valid : Bool
  errors : List String
deriving DecidableEq

/-- A JavaScript-falsy environment variable: undefined or empty. -/
def isFalsyEnvVar (o : Option String) : Bool :=
  o.getD "" = ""

/-- `validateConfig` from `src/config.ts`: collect one error message per
missing variable; `valid` holds exactly when no error was collected. -/
def validateConfig (env : Env) : ConfigValidation :=
  let errors :=
    (if SLACK_SIGNING_SECRET env = ""
     then ["SLACK_SIGNING_SECRET environment variable is required"] else []) ++
    (if (ALLOWED_USERS env).length = 0
     then ["ALLOWED_USERS environment variable is required (comma-separated Slack user IDs)"]
     else []) ++
    (if isFalsyEnvVar env.stagingProjectId
     then ["STAGING_PROJECT_ID environment variable is required"] else []) ++
    (if isFalsyEnvVar env.prodProjectId
     then ["PROD_PROJECT_ID environment variable is required"] else [])
  ⟨errors.length = 0, errors⟩

-- ===== auth.ts =====

/-- `isUserAuthorized` from `src/auth.ts`: `ALLOWED_USERS.includes(userId)`.
The allowlist is an explicit argument because the source reads the constant
parsed once at process start. -/
def isUserAuthorized (allowed : List String) (userId : String) : Bool :=
  allowed.contains userId

/-- `getAuthorizationErrorMessage` from `src/auth.ts`. -/
def getAuthorizationErrorMessage (userId : String) : String :=
  ":x: You are not authorized to trigger deployments.\n\nYour user ID: `" ++ userId ++
  "`\n\nPlease contact an administrator to be added to the allowlist."

-- ===== slack.ts =====

/-- `TIMESTAMP_MAX_AGE_SECONDS` from `src/slack.ts`. -/
def TIMESTAMP_MAX_AGE_SECONDS : Int := 300

/-- `verifySlackRequest` from `src/slack.ts`.  The system clock enters as
`now` (the source's `Math.floor(Date.now() / 1000)`) and HMAC-SHA256 as the
oracle `hmacHex secret message` (the source's lowercase hex digest).  The
timing-safe buffer comparison of two equal-length UTF-8 strings is byte
equality, hence string equality; `Buffer.from(_, 'utf8')` never throws, so
the source's catch branch is unreachable and has no arm here.  The source's
local `expectedSignature` constant is the named definition
`expectedSlackSignature` above. -/
def expectedSlackSignature (hmacHex : String → String → String)
    (signingSecret timestamp rawBody : String) : String :=
  "v0=" ++ hmacHex signingSecret ("v0:" ++ timestamp ++ ":" ++ rawBody)

def verifySlackRequest (hmacHex : String → String → String) (now : Int)
    (signingSecret signature timestamp rawBody : String) : VerificationResult :=
  match jsParseInt timestamp with
  | none => .invalid "Invalid timestamp format"
  | some requestTimestamp =>
    if (now - requestTimestamp).natAbs > TIMESTAMP_MAX_AGE_SECONDS.natAbs then
      .invalid "Request timestamp too old (replay attack prevention)"
    else if signature.utf8ByteSize ≠
        (expectedSlackSignature hmacHex signingSecret timestamp rawBody).utf8ByteSize then
      .invalid "Signature length mismatch"
    else if signature ≠ expectedSlackSignature hmacHex signingSecret timestamp rawBody then
      .invalid "Signature verification failed"
    else
      .valid

/-- `parseSlackCommand` from `src/slack.ts`: `params.get(k) ?? ''` for each
of the eleven fields. -/
def parseSlackCommand (body : String) : SlackSlashCommand :=
  ⟨(formGet body "token").getD "",
   (formGet body "team_id").getD "",
   (formGet body "team_domain").getD "",
   (formGet body "channel_id").getD "",
   (formGet body "channel_name").getD "",
   (formGet body "user_id").getD "",
   (formGet body "user_name").getD "",
   (formGet body "command").getD "",
   (formGet body "text").getD "",
   (formGet body "response_url").getD "",
   (formGet body "trigger_id").getD ""⟩

/-- `text.trim().split(/\s+/)`: on the empty trimmed string JavaScript
yields `[""]`; otherwise the non-empty whitespace-separated tokens. -/
def trimSplitWS (text : String) : List String :=
  let t := jsTrim text
  if t = "" then [""]
  else ((splitByPred Char.isWhitespace t.data).filter (fun cs => ¬ cs.isEmpty)).map
    String.mk

/-- `parseDeployCommand` from `src/slack.ts`. -/
def parseDeployCommand (text : String) :
    Result (String × String) ParseError :=
  let parts := trimSplitWS text
  match parts[0]? with
  | none => .err ⟨.MISSING_SERVICE, "Service is required"⟩
  | some service =>
    if service = "" then .err ⟨.MISSING_SERVICE, "Service is required"⟩
    else
      match parts[1]? with
      | none => .err ⟨.MISSING_ENV, "Environment is required"⟩
      | some environment =>
        if environment = "" then .err ⟨.MISSING_ENV, "Environment is required"⟩
        else if ¬ isValidService service then
          .err ⟨.INVALID_SERVICE, "Unknown service: " ++ service⟩
        else if ¬ isValidEnvironment environment then
          .err ⟨.INVALID_ENV, "Unknown environment: " ++ environment⟩
        else
          .ok (service, environment)

/-- `createEphemeralResponse` from `src/slack.ts`. -/
def createEphemeralResponse (text : String) : SlackResponse :=
  .ephemeral text

/-- `createChannelResponse` from `src/slack.ts`. -/
def createChannelResponse (text : String) : SlackResponse :=
  .inChannel text

-- ===== cloudbuild.ts =====

/-- A JavaScript value as seen by the metadata type guards of
`src/cloudbuild.ts`: a string, a plain (non-array, non-null) object, or
anything else. -/
inductive JsValue where
  | str (s : String)
  | record (fields : List (String × JsValue))
  | other

/-- `isRecord` from `src/cloudbuild.ts`. -/
def isRecord : JsValue → Bool
  | .record _ => true
  | _ => false

/-- The build id accepted by `hasValidBuildMetadata` followed by the
`metadata.build.id` access of `triggerBuild`: the metadata must be a
record whose `build` field is a record whose `id` field is a non-empty
string. -/
def extractBuildId (metadata : JsValue) : Option String :=
  match metadata with
  | .record fields =>
    match fields.find? (fun p => p.1 = "build") with
    | some (_, .record buildFields) =>
      match buildFields.find? (fun p => p.1 = "id") with
      | some (_, .str id) => if id.length > 0 then some id else none
      | _ => none
    | _ => none
  | _ => none

/-- `hasValidBuildMetadata` from `src/cloudbuild.ts`. -/
def hasValidBuildMetadata (metadata : JsValue) : Bool :=
  (extractBuildId metadata).isSome

/-- `toCloudBuildError` from `src/cloudbuild.ts`: classify a thrown value
by substrings of its message when it is an `Error`, `UNKNOWN_ERROR`
otherwise. -/
def toCloudBuildError (error : JsError) : CloudBuildError :=
  match error with
  | .errorObj msg =>
    if strIncludes msg "NOT_FOUND" || strIncludes msg "404" then
      ⟨.TRIGGER_NOT_FOUND, "Cloud Build trigger not found", some error⟩
    else if strIncludes msg "PERMISSION_DENIED" || strIncludes msg "403" then
      ⟨.PERMISSION_DENIED, "Permission denied to trigger build", some error⟩
    else
      ⟨.UNKNOWN_ERROR, msg, some error⟩
  | .nonError stringRepr => ⟨.UNKNOWN_ERROR, stringRepr, some error⟩

/-- `triggerBuild` from `src/cloudbuild.ts`.  The external
`client.runBuildTrigger` call enters as `api`: either a thrown value or the
`operation.metadata` of the returned operation; every thrown value is
caught and normalized. -/
def triggerBuild (projectId triggerId : String)
    (api : Except JsError JsValue) : Result BuildResult CloudBuildError :=
  match api with
  | .error e => .err (toCloudBuildError e)
  | .ok metadata =>
    match extractBuildId metadata with
    | none => .err ⟨.INVALID_RESPONSE, "Invalid operation metadata from Cloud Build API", none⟩
    | some buildId =>
      .ok ⟨buildId,
           "https://console.cloud.google.com/cloud-build/builds/" ++ buildId ++
             "?project=" ++ projectId,
           projectId⟩

-- ===== audit.ts =====

/-- The fields shared by the three arms of the `AuditLog` discriminated
union of `src/types.ts`. -/
structure AuditBase where
  timestamp : String
  userId : String
  userName : String
  service : String
  environment : String
  durationMs : Int
deriving DecidableEq

/-- The `AuditLog` discriminated union of `src/types.ts`; the constructor
mirrors the `status` tag. -/
inductive AuditLog where
  | success (base : AuditBase) (projectId triggerId buildId : String)
  | denied (base : AuditBase) (reason : String)
  | error (base : AuditBase) (errorMessage : String) (projectId triggerId : Option String)
deriving DecidableEq

/-- The `status` tag of an audit record. -/
def AuditLog.status : AuditLog → String
  | .success _ _ _ _ => "SUCCESS"
  | .denied _ _ => "DENIED"
  | .error _ _ _ _ => "ERROR"

/-- The shared base fields of an audit record. -/
def AuditLog.base : AuditLog → AuditBase
  | .success b _ _ _ => b
  | .denied b _ => b
  | .error b _ _ _ => b

/-- The `buildId` field: present exactly on `SUCCESS` records. -/
def AuditLog.buildIdField : AuditLog → Option String
  | .success _ _ _ buildId => some buildId
  | _ => none

/-- The `reason` field: present exactly on `DENIED` records. -/
def AuditLog.reasonField : AuditLog → Option String
  | .denied _ reason => some reason
  | _ => none

/-- The `errorMessage` field: present exactly on `ERROR` records. -/
def AuditLog.errorMessageField : AuditLog → Option String
  | .error _ errorMessage _ _ => some errorMessage
  | _ => none

/-- `createSuccessAuditLog` from `src/audit.ts`; `isoNow` is the source's
`new Date().toISOString()`. -/
def createSuccessAuditLog (isoNow : String)
    (userId userName service environment projectId triggerId buildId : String)
    (durationMs : Int) : AuditLog :=
  .success ⟨isoNow, userId, userName, service, environment, durationMs⟩
    projectId triggerId buildId

/-- `createDeniedAuditLog` from `src/audit.ts`. -/
def createDeniedAuditLog (isoNow : String)
    (userId userName service environment reason : String)
    (durationMs : Int) : AuditLog :=
  .denied ⟨isoNow, userId, userName, service, environment, durationMs⟩ reason

/-- `createErrorAuditLog` from `src/audit.ts`; the four source branches on
the two optional identifiers are reproduced verbatim. -/
def createErrorAuditLog (isoNow : String)
    (userId userName service environment errorMessage : String)
    (durationMs : Int) (projectId triggerId : Option String) : AuditLog :=
  match projectId, triggerId with
  | some p, some t =>
    .error ⟨isoNow, userId, userName, service, environment, durationMs⟩
      errorMessage (some p) (some t)
  | some p, none =>
    .error ⟨isoNow, userId, userName, service, environment, durationMs⟩
      errorMessage (some p) none
  | none, some t =>
    .error ⟨isoNow, userId, userName, service, environment, durationMs⟩
      errorMessage none (some t)
  | none, none =>
    .error ⟨isoNow, userId, userName, service, environment, durationMs⟩
      errorMessage none none

/-- The severity chosen by `logAuditEvent` in `src/audit.ts`. -/
def logSeverity (event : AuditLog) : String :=
  if event.status = "SUCCESS" then "INFO" else "WARNING"

-- ===== index.ts =====

/-- One observable action of the handler: an immediate HTTP response, an
audit write (`logAuditEvent`), the Cloud Build trigger invocation
(`triggerBuild`), or a delayed response posted to the callback URL
(`sendDelayedResponse`). -/
inductive Event where
  | respond (status : Nat) (response : SlackResponse)
  | audit (entry : AuditLog)
  | build (projectId triggerId : String)
  | delayed (responseUrl : String) (response : SlackResponse)
deriving DecidableEq

/-- The help/list shortcut test of `src/index.ts`:
`commandText === 'help' || commandText === 'list' || commandText === ''`
on `command.text.trim().toLowerCase()`. -/
def isHelpText (text : String) : Bool :=
  jsToLower (jsTrim text) = "help" || jsToLower (jsTrim text) = "list" ||
    jsToLower (jsTrim text) = ""

/-- `deployBot` from `src/index.ts`, as the ordered list of observable
actions of one request.  External inputs are explicit: `env` the process
environment, `hmacHex` the HMAC-SHA256 oracle, `now` the Unix-second clock,
`isoNow` the ISO timestamp taken for audit records, `duration` the measured
`Date.now() - startTime`, `signatureHeader`/`timestampHeader` the two Slack
headers (`none` when absent or not a single string), and `api` the Cloud
Build response.  The background task is part of the same trace because the
source starts it before the handler returns. -/
def deployBot (env : Env) (hmacHex : String → String → String) (now : Int)
    (isoNow : String) (duration : Int) (method : String) (rawBody : String)
    (signatureHeader timestampHeader : Option String)
    (api : Except JsError JsValue) : List Event :=
  if method ≠ "POST" then
    [.respond 405 (createEphemeralResponse "Method not allowed")]
  else if (validateConfig env).valid = false then
    [.respond 500 (createEphemeralResponse ":x: Bot configuration error. Please check logs.")]
  else
    match signatureHeader, timestampHeader with
    | some signature, some timestamp =>
      match verifySlackRequest hmacHex now (SLACK_SIGNING_SECRET env) signature timestamp rawBody with
      | .invalid _ => [.respond 401 (createEphemeralResponse "Request verification failed")]
      | .valid =>
        if isUserAuthorized (ALLOWED_USERS env) (parseSlackCommand rawBody).user_id = false then
          [.audit (createDeniedAuditLog isoNow (parseSlackCommand rawBody).user_id
             (parseSlackCommand rawBody).user_name "unknown" "unknown"
             "User not authorized" duration),
           .respond 200 (createEphemeralResponse
             (getAuthorizationErrorMessage (parseSlackCommand rawBody).user_id))]
        else if isHelpText (parseSlackCommand rawBody).text = true then
          [.respond 200 (createEphemeralResponse (getHelpMessage env))]
        else
          match parseDeployCommand (parseSlackCommand rawBody).text with
          | .err parseError =>
            [.respond 200 (createEphemeralResponse
              (":x: " ++ parseError.message ++
               "\n\nType `/deploy help` to see available services and usage."))]
          | .ok (service, environment) =>
            .respond 200 (createEphemeralResponse
              (":hourglass_flowing_sand: Triggering deployment of *" ++
               (getServiceConfig service).displayName ++ "* to *" ++
               (getEnvironmentConfig env environment).displayName ++ "*...")) ::
            .build (getEnvironmentConfig env environment).projectId
              (getServiceConfig service).triggerId ::
            (match triggerBuild (getEnvironmentConfig env environment).projectId
                (getServiceConfig service).triggerId api with
             | .err buildError =>
               [.audit (createErrorAuditLog isoNow (parseSlackCommand rawBody).user_id
                  (parseSlackCommand rawBody).user_name service environment
                  buildError.message duration
                  (some (getEnvironmentConfig env environment).projectId)
                  (some (getServiceConfig service).triggerId)),
                .delayed (parseSlackCommand rawBody).response_url
                  (createEphemeralResponse
                    (":x: *Failed to trigger deployment*\n\nError: " ++
                     buildError.message ++
                     "\n\nPlease check that the trigger exists and you have the correct permissions."))]
             | .ok buildValue =>
               [.audit (createSuccessAuditLog isoNow (parseSlackCommand rawBody).user_id
                  (parseSlackCommand rawBody).user_name service environment
                  (getEnvironmentConfig env environment).projectId
                  (getServiceConfig service).triggerId buildValue.buildId duration),
                .delayed (parseSlackCommand rawBody).response_url
                  (createChannelResponse
                    (":rocket: *Deployment triggered!*\n\n*Service:* " ++
                     (getServiceConfig service).displayName ++ " (`" ++ service ++
                     "`)\n*Environment:* " ++
                     (getEnvironmentConfig env environment).displayName ++ " (`" ++
                     environment ++ "`)\n*Build ID:* " ++ buildValue.buildId ++
                     "\n*Triggered by:* <@" ++ (parseSlackCommand rawBody).user_id ++
                     ">\n\n<" ++ buildValue.logUrl ++ "|View build logs>"))])
    | _, _ => [.respond 401 (createEphemeralResponse "Missing security headers")]

/-- Whether an event is an audit write. -/
def isAuditEvent : Event → Bool
  | .audit _ => true
  | _ => false

/-- Whether an event is a build trigger invocation. -/
def isBuildEvent : Event → Bool
  | .build _ _ => true
  | _ => false

/-- The number of audit records written in a trace. -/
def countAudits (trace : List Event) : Nat :=
  (trace.filter isAuditEvent).length

/-- The number of build trigger invocations in a trace. -/
def countBuilds (trace : List Event) : Nat :=
  (trace.filter isBuildEvent).length

/-- The audit records of a trace, in order. -/
def auditEntries (trace : List Event) : List AuditLog :=
  trace.filterMap (fun e =>
    match e with
    | .audit a => some a
    | _ => none)

/-- Case analysis of one `deployBot` run: the trace is exactly one of the
eight linear paths of the handler, each tagged with the conditions that
select it. -/
lemma deployBot_shape (env : Env) (hmacHex : String → String → String)
    (now : Int) (isoNow : String) (duration : Int) (method rawBody : String)
    (signatureHeader timestampHeader : Option String) (api : Except JsError JsValue) :
    (method ≠ "POST" ∧
      ∃ r, deployBot env hmacHex now isoNow duration method rawBody
        signatureHeader timestampHeader api = [.respond 405 r]) ∨
    (method = "POST" ∧ (validateConfig env).valid = false ∧
      ∃ r, deployBot env hmacHex now isoNow duration method rawBody
        signatureHeader timestampHeader api = [.respond 500 r]) ∨
    (method = "POST" ∧ (validateConfig env).valid = true ∧
      (¬ ∃ s t, signatureHeader = some s ∧ timestampHeader = some t) ∧
      ∃ r, deployBot env hmacHex now isoNow duration method rawBody
        signatureHeader timestampHeader api = [.respond 401 r]) ∨
    (method = "POST" ∧ (validateConfig env).valid = true ∧
      (∃ s t reason, signatureHeader = some s ∧ timestampHeader = some t ∧
        verifySlackRequest hmacHex now (SLACK_SIGNING_SECRET env) s t rawBody =
          .invalid reason) ∧
      ∃ r, deployBot env hmacHex now isoNow duration method rawBody
        signatureHeader timestampHeader api = [.respond 401 r]) ∨
    (method = "POST" ∧ (validateConfig env).valid = true ∧
      (∃ s t, signatureHeader = some s ∧ timestampHeader = some t ∧
        verifySlackRequest hmacHex now (SLACK_SIGNING_SECRET env) s t rawBody = .valid) ∧
      ((isUserAuthorized (ALLOWED_USERS env) (parseSlackCommand rawBody).user_id = false ∧
        ∃ r, deployBot env hmacHex now isoNow duration method rawBody
            signatureHeader timestampHeader api =
          [.audit (createDeniedAuditLog isoNow (parseSlackCommand rawBody).user_id
             (parseSlackCommand rawBody).user_name "unknown" "unknown"
             "User not authorized" duration),
           .respond 200 r]) ∨
       (isUserAuthorized (ALLOWED_USERS env) (parseSlackCommand rawBody).user_id = true ∧
        isHelpText (parseSlackCommand rawBody).text = true ∧
        ∃ r, deployBot env hmacHex now isoNow duration method rawBody
          signatureHeader timestampHeader api = [.respond 200 r]) ∨
       (isUserAuthorized (ALLOWED_USERS env) (parseSlackCommand rawBody).user_id = true ∧
        isHelpText (parseSlackCommand rawBody).text = false ∧
        (∃ pe, parseDeployCommand (parseSlackCommand rawBody).text = .err pe) ∧
        ∃ r, deployBot env hmacHex now isoNow duration method rawBody
          signatureHeader timestampHeader api = [.respond 200 r]) ∨
       (isUserAuthorized (ALLOWED_USERS env) (parseSlackCommand rawBody).user_id = true ∧
        isHelpText (parseSlackCommand rawBody).text = false ∧
        ∃ service environment,
          parseDeployCommand (parseSlackCommand rawBody).text = .ok (service, environment) ∧
          ((∃ e r rd, triggerBuild (getEnvironmentConfig env environment).projectId
              (getServiceConfig service).triggerId api = .err e ∧
            deployBot env hmacHex now isoNow duration method rawBody
                signatureHeader timestampHeader api =
              [.respond 200 r,
               .build (getEnvironmentConfig env environment).projectId
                 (getServiceConfig service).triggerId,
               .audit (createErrorAuditLog isoNow (parseSlackCommand rawBody).user_id
                 (parseSlackCommand rawBody).user_name service environment
                 e.message duration
                 (some (getEnvironmentConfig env environment).projectId)
                 (some (getServiceConfig service).triggerId)),
               .delayed (parseSlackCommand rawBody).response_url rd]) ∨
           (∃ b r rd, triggerBuild (getEnvironmentConfig env environment).projectId
              (getServiceConfig service).triggerId api = .ok b ∧
            deployBot env hmacHex now isoNow duration method rawBody
                signatureHeader timestampHeader api =
              [.respond 200 r,
               .build (getEnvironmentConfig env environment).projectId
                 (getServiceConfig service).triggerId,
               .audit (createSuccessAuditLog isoNow (parseSlackCommand rawBody).user_id
                 (parseSlackCommand rawBody).user_name service environment
                 (getEnvironmentConfig env environment).projectId
                 (getServiceConfig service).triggerId b.buildId duration),
               .delayed (parseSlackCommand rawBody).response_url rd]))))) := by
  by_cases hm : method ≠ "POST"
  · exact Or.inl ⟨hm, createEphemeralResponse "Method not allowed",
      by rw [deployBot.eq_def, if_pos hm]⟩
  · have hmeq : method = "POST" := not_not.mp hm
    subst hmeq
    by_cases hcfg : (validateConfig env).valid = false
    · exact Or.inr (Or.inl ⟨rfl, hcfg,
        createEphemeralResponse ":x: Bot configuration error. Please check logs.",
        by simp only [deployBot.eq_def]; simp [hcfg]⟩)
    · have hcfgt : (validateConfig env).valid = true := by
        revert hcfg; cases (validateConfig env).valid <;> simp
      rcases signatureHeader with _ | signature
      · refine Or.inr (Or.inr (Or.inl ⟨rfl, hcfgt, ?_,
          createEphemeralResponse "Missing security headers", ?_⟩))
        · rintro ⟨s, t, hs, _⟩; exact Option.noConfusion hs
        · simp only [deployBot.eq_def]; simp [hcfgt]
      · rcases timestampHeader with _ | timestamp
        · refine Or.inr (Or.inr (Or.inl ⟨rfl, hcfgt, ?_,
            createEphemeralResponse "Missing security headers", ?_⟩))
          · rintro ⟨s, t, _, ht⟩; exact Option.noConfusion ht
          · simp only [deployBot.eq_def]; simp [hcfgt]
        · cases hv : verifySlackRequest hmacHex now (SLACK_SIGNING_SECRET env)
            signature timestamp rawBody with
          | invalid reason =>
            refine Or.inr (Or.inr (Or.inr (Or.inl
              ⟨rfl, hcfgt, ⟨signature, timestamp, reason, rfl, rfl, hv⟩,
               createEphemeralResponse "Request verification failed", ?_⟩)))
            simp only [deployBot.eq_def]; simp [hcfgt, hv]
          | valid =>
            refine Or.inr (Or.inr (Or.inr (Or.inr
              ⟨rfl, hcfgt, ⟨signature, timestamp, rfl, rfl, hv⟩, ?_⟩)))
            by_cases hauth : isUserAuthorized (ALLOWED_USERS env)
                (parseSlackCommand rawBody).user_id = false
            · refine Or.inl ⟨hauth,
                createEphemeralResponse
                  (getAuthorizationErrorMessage (parseSlackCommand rawBody).user_id), ?_⟩
              simp only [deployBot.eq_def]; simp [hcfgt, hv, hauth]
            · have hautht : isUserAuthorized (ALLOWED_USERS env)
                  (parseSlackCommand rawBody).user_id = true := by
                revert hauth
                cases isUserAuthorized (ALLOWED_USERS env)
                  (parseSlackCommand rawBody).user_id <;> simp
              by_cases hhelp : isHelpText (parseSlackCommand rawBody).text = true
              · refine Or.inr (Or.inl ⟨hautht, hhelp,
                  createEphemeralResponse (getHelpMessage env), ?_⟩)
                simp only [deployBot.eq_def]; simp [hcfgt, hv, hautht, hhelp]
              · have hhelpf : isHelpText (parseSlackCommand rawBody).text = false := by
                  revert hhelp
                  cases isHelpText (parseSlackCommand rawBody).text <;> simp
                cases hp : parseDeployCommand (parseSlackCommand rawBody).text with
                | err pe =>
                  refine Or.inr (Or.inr (Or.inl ⟨hautht, hhelpf, ⟨pe, rfl⟩,
                    createEphemeralResponse
                      (":x: " ++ pe.message ++
                       "\n\nType `/deploy help` to see available services and usage."), ?_⟩))
                  simp only [deployBot.eq_def]; simp [hcfgt, hv, hautht, hhelpf, hp]
                | ok v =>
                  rcases v with ⟨service, environment⟩
                  refine Or.inr (Or.inr (Or.inr
                    ⟨hautht, hhelpf, service, environment, rfl, ?_⟩))
                  cases htb : triggerBuild (getEnvironmentConfig env environment).projectId
                      (getServiceConfig service).triggerId api with
                  | err e =>
                    refine Or.inl ⟨e,
                      createEphemeralResponse
                        (":hourglass_flowing_sand: Triggering deployment of *" ++
                         (getServiceConfig service).displayName ++ "* to *" ++
                         (getEnvironmentConfig env environment).displayName ++ "*..."),
                      createEphemeralResponse
                        (":x: *Failed to trigger deployment*\n\nError: " ++
                         e.message ++
                         "\n\nPlease check that the trigger exists and you have the correct permissions."),
                      rfl, ?_⟩
                    simp only [deployBot.eq_def]; simp [hcfgt, hv, hautht, hhelpf, hp, htb]
                  | ok b =>
                    refine Or.inr ⟨b,
                      createEphemeralResponse
                        (":hourglass_flowing_sand: Triggering deployment of *" ++
                         (getServiceConfig service).displayName ++ "* to *" ++
                         (getEnvironmentConfig env environment).displayName ++ "*..."),
                      createChannelResponse
                        (":rocket: *Deployment triggered!*\n\n*Service:* " ++
                         (getServiceConfig service).displayName ++ " (`" ++ service ++
                         "`)\n*Environment:* " ++
                         (getEnvironmentConfig env environment).displayName ++ " (`" ++
                         environment ++ "`)\n*Build ID:* " ++ b.buildId ++
                         "\n*Triggered by:* <@" ++ (parseSlackCommand rawBody).user_id ++
                         ">\n\n<" ++ b.logUrl ++ "|View build logs>"),
                      rfl, ?_⟩
                    simp only [deployBot.eq_def]; simp [hcfgt, hv, hautht, hhelpf, hp, htb]

-- ===== Concrete request fixtures used by witnesses and counterexamples =====

/-- A fully configured process environment. -/
def cexEnv : Env :=
  ⟨some "secret", some "U1", some "staging-project", some "prod-project"⟩

/-- A concrete HMAC oracle: every message digests to `"mac"`. -/
def cexHmac : String → String → String := fun _ _ => "mac"

/-- A concrete ISO timestamp for audit records. -/
def cexIso : String := "2026-01-01T00:00:00.000Z"

/-- A signed request body from the allowlisted user asking for help. -/
def helpBody : String :=
  "user_id=U1&user_name=alice&text=help&response_url=https://hooks.example/1"

/-- A signed request body from the allowlisted user deploying a service. -/
def deployBody : String :=
  "user_id=U1&user_name=alice&text=backend-api staging&response_url=https://hooks.example/2"

/-- A request body from a user who is not on the allowlist. -/
def deniedBody : String :=
  "user_id=U2&user_name=bob&text=backend-api staging&response_url=https://hooks.example/3"

/-- The audit record the handler writes for `deniedBody`. -/
def cexDeniedAudit : AuditLog :=
  createDeniedAuditLog cexIso "U2" "bob" "unknown" "unknown" "User not authorized" 5

-- ===== Claims =====

/-- Claim C2: `verifySlackRequest` returns `valid` exactly when the
timestamp header parses as an integer (JavaScript `parseInt`) within 300
seconds of the current Unix time and the signature header equals `v0=`
followed by the hex HMAC-SHA256 of `v0:timestamp:rawBody` under the signing
secret; in every other case it returns `invalid` with a reason string. -/
theorem verifySlackRequest_valid_iff (hmacHex : String → String → String) (now : Int)
    (signingSecret signature timestamp rawBody : String) :
    (verifySlackRequest hmacHex now signingSecret signature timestamp rawBody = .valid ↔
      ∃ t, jsParseInt timestamp = some t ∧ (now - t).natAbs ≤ 300 ∧
        signature = "v0=" ++ hmacHex signingSecret ("v0:" ++ timestamp ++ ":" ++ rawBody)) ∧
    (verifySlackRequest hmacHex now signingSecret signature timestamp rawBody = .valid ∨
      ∃ reason, verifySlackRequest hmacHex now signingSecret signature timestamp rawBody =
        .invalid reason) := by
  constructor
  · unfold verifySlackRequest
    cases h : jsParseInt timestamp with
    | none => simp
    | some t =>
      simp only []
      by_cases habs : TIMESTAMP_MAX_AGE_SECONDS.natAbs < (now - t).natAbs
      · rw [if_pos habs]
        apply iff_of_false (by simp)
        rintro ⟨t', ht', hle, _⟩
        obtain rfl := Option.some.inj ht'
        simp only [TIMESTAMP_MAX_AGE_SECONDS] at habs
        omega
      · rw [if_neg habs]
        by_cases hlen : signature.utf8ByteSize ≠
            (expectedSlackSignature hmacHex signingSecret timestamp rawBody).utf8ByteSize
        · rw [if_pos hlen]
          apply iff_of_false (by simp)
          rintro ⟨t', ht', hle, hsig⟩
          exact hlen (by rw [hsig]; rfl)
        · rw [if_neg hlen]
          by_cases hne : signature ≠
              expectedSlackSignature hmacHex signingSecret timestamp rawBody
          · rw [if_pos hne]
            apply iff_of_false (by simp)
            rintro ⟨t', ht', hle, hsig⟩
            exact hne (by rw [hsig]; rfl)
          · rw [if_neg hne]
            apply iff_of_true rfl
            refine ⟨t, rfl, ?_, ?_⟩
            · simp only [TIMESTAMP_MAX_AGE_SECONDS] at habs
              omega
            · exact not_not.mp hne
  · cases hr : verifySlackRequest hmacHex now signingSecret signature timestamp rawBody with
    | valid => exact Or.inl rfl
    | invalid reason => exact Or.inr ⟨reason, rfl⟩

/-- Claim C9: when the parsed timestamp lies more than 300 seconds from the
current time in either direction — in particular more than 300 seconds in
the future — `verifySlackRequest` answers
`invalid "Request timestamp too old (replay attack prevention)"` for every
HMAC oracle, so the HMAC is neither computed nor compared. -/
theorem verifySlackRequest_rejects_distant_timestamps
    (hmacHex : String → String → String) (now t : Int)
    (signingSecret signature timestamp rawBody : String)
    (hparse : jsParseInt timestamp = some t)
    (hfar : 300 < (now - t).natAbs) :
    verifySlackRequest hmacHex now signingSecret signature timestamp rawBody =
      .invalid "Request timestamp too old (replay attack prevention)" := by
  unfold verifySlackRequest
  rw [hparse]
  simp only []
  rw [if_pos (by simp only [TIMESTAMP_MAX_AGE_SECONDS]; omega)]

/-- Witness for C9: a request stamped 301 seconds in the future of the
clock is rejected with the replay-prevention reason. -/
theorem verifySlackRequest_rejects_distant_timestamps_witness :
    verifySlackRequest cexHmac 1000000 "secret" "v0=mac" "1000301" "body" =
      .invalid "Request timestamp too old (replay attack prevention)" :=
  verifySlackRequest_rejects_distant_timestamps cexHmac 1000000 1000301
    "secret" "v0=mac" "1000301" "body" (by decide) (by decide)

/-- Claim C10: `parseSlackCommand` is total by construction and each of its
eleven fields is the decoded value of the form parameter of the same name
when present, and the empty string when absent. -/
theorem parseSlackCommand_field_characterization (body : String) :
    (parseSlackCommand body).token = (formGet body "token").getD "" ∧
    (parseSlackCommand body).team_id = (formGet body "team_id").getD "" ∧
    (parseSlackCommand body).team_domain = (formGet body "team_domain").getD "" ∧
    (parseSlackCommand body).channel_id = (formGet body "channel_id").getD "" ∧
    (parseSlackCommand body).channel_name = (formGet body "channel_name").getD "" ∧
    (parseSlackCommand body).user_id = (formGet body "user_id").getD "" ∧
    (parseSlackCommand body).user_name = (formGet body "user_name").getD "" ∧
    (parseSlackCommand body).command = (formGet body "command").getD "" ∧
    (parseSlackCommand body).text = (formGet body "text").getD "" ∧
    (parseSlackCommand body).response_url = (formGet body "response_url").getD "" ∧
    (parseSlackCommand body).trigger_id = (formGet body "trigger_id").getD "" :=
  ⟨rfl, rfl, rfl, rfl, rfl, rfl, rfl, rfl, rfl, rfl, rfl⟩

/-- Claim C5: `isUserAuthorized` answers `true` exactly for the members of
the allowlist parsed from the `ALLOWED_USERS` variable; the parsed list is
a fixed value of the environment, never mutated. -/
theorem isUserAuthorized_iff_mem (envVar : Option String) (userId : String) :
    isUserAuthorized (parseAllowedUsers envVar) userId = true ↔
      userId ∈ parseAllowedUsers envVar := by
  simp [isUserAuthorized]

/-- Claim C6: `triggerBuild` is total (every throw of the build API is
caught) and always returns either a build id with its log URL or an error
carrying one of the four `CloudBuildErrorCode` values. -/
theorem triggerBuild_total_and_normalized (projectId triggerId : String)
    (api : Except JsError JsValue) :
    (∃ b, triggerBuild projectId triggerId api = .ok b) ∨
    (∃ e, triggerBuild projectId triggerId api = .err e ∧
      (e.code = .INVALID_RESPONSE ∨ e.code = .TRIGGER_NOT_FOUND ∨
       e.code = .PERMISSION_DENIED ∨ e.code = .UNKNOWN_ERROR)) := by
  cases hr : triggerBuild projectId triggerId api with
  | ok b => exact Or.inl ⟨b, rfl⟩
  | err e =>
    refine Or.inr ⟨e, rfl, ?_⟩
    rcases e with ⟨code, msg, orig⟩
    cases code <;> simp

/-- Claim C7: the three audit constructors tag their record with the
matching status (the only three statuses an `AuditLog` can carry), and
every record carries the requesting user, the service and environment, the
ISO timestamp, the duration, and the outcome detail of its tag. -/
theorem auditLog_constructor_characterization
    (isoNow userId userName service environment : String)
    (projectId triggerId buildId reason errorMessage : String)
    (durationMs : Int) (optProjectId optTriggerId : Option String) :
    (∀ a : AuditLog, a.status = "SUCCESS" ∨ a.status = "DENIED" ∨ a.status = "ERROR") ∧
    (createSuccessAuditLog isoNow userId userName service environment
        projectId triggerId buildId durationMs).status = "SUCCESS" ∧
    (createSuccessAuditLog isoNow userId userName service environment
        projectId triggerId buildId durationMs).base =
      ⟨isoNow, userId, userName, service, environment, durationMs⟩ ∧
    (createSuccessAuditLog isoNow userId userName service environment
        projectId triggerId buildId durationMs).buildIdField = some buildId ∧
    (createDeniedAuditLog isoNow userId userName service environment
        reason durationMs).status = "DENIED" ∧
    (createDeniedAuditLog isoNow userId userName service environment
        reason durationMs).base =
      ⟨isoNow, userId, userName, service, environment, durationMs⟩ ∧
    (createDeniedAuditLog isoNow userId userName service environment
        reason durationMs).reasonField = some reason ∧
    (createErrorAuditLog isoNow userId userName service environment
        errorMessage durationMs optProjectId optTriggerId).status = "ERROR" ∧
    (createErrorAuditLog isoNow userId userName service environment
        errorMessage durationMs optProjectId optTriggerId).base =
      ⟨isoNow, userId, userName, service, environment, durationMs⟩ ∧
    (createErrorAuditLog isoNow userId userName service environment
        errorMessage durationMs optProjectId optTriggerId).errorMessageField =
      some errorMessage := by
  refine ⟨?_, rfl, rfl, rfl, rfl, rfl, rfl, ?_, ?_, ?_⟩
  · intro a; rcases a <;> simp [AuditLog.status]
  all_goals rcases optProjectId with _ | p <;> rcases optTriggerId with _ | t <;> rfl

/-- Claim C4 (code bug): `isValidService` uses the JavaScript `in`
operator, which consults the prototype chain, so `parseDeployCommand`
accepts the inherited property name `toString` as a service even though it
is not a key of the `SERVICES` table; the declared type guard
`value is ServiceAlias` and the claim both require a table key. -/
theorem parseDeployCommand_accepts_prototype_key :
    parseDeployCommand "toString staging" = .ok ("toString", "staging") ∧
    getValidServices.contains "toString" = false := by decide

/-- Claim C1 counterexample: a verified, authorized request whose text is
`help` reaches the authorization check yet writes no audit record at all,
refuting "exactly one AuditRecord per request that reaches the
authorization check". -/
theorem deployBot_help_request_writes_no_audit :
    (validateConfig cexEnv).valid = true ∧
    verifySlackRequest cexHmac 100 (SLACK_SIGNING_SECRET cexEnv) "v0=mac" "100"
      helpBody = .valid ∧
    isUserAuthorized (ALLOWED_USERS cexEnv) (parseSlackCommand helpBody).user_id = true ∧
    countAudits (deployBot cexEnv cexHmac 100 cexIso 5 "POST" helpBody
      (some "v0=mac") (some "100") (Except.ok JsValue.other)) = 0 :=
  ⟨by decide, by decide, by decide, by decide⟩

/-- Claim C1 (amended): a request that reaches the authorization check
writes exactly one audit record when it is denied or when a build is
attempted (failure or success), and none when it is answered by the
help/list/empty shortcut or rejected by the command parser. -/
theorem deployBot_audit_count (env : Env) (hmacHex : String → String → String)
    (now : Int) (isoNow : String) (duration : Int)
    (rawBody signature timestamp : String) (api : Except JsError JsValue)
    (hconfig : (validateConfig env).valid = true)
    (hverify : verifySlackRequest hmacHex now (SLACK_SIGNING_SECRET env)
        signature timestamp rawBody = .valid) :
    countAudits (deployBot env hmacHex now isoNow duration "POST" rawBody
        (some signature) (some timestamp) api) =
      (if isUserAuthorized (ALLOWED_USERS env) (parseSlackCommand rawBody).user_id = false
       then 1
       else if isHelpText (parseSlackCommand rawBody).text = true then 0
       else match parseDeployCommand (parseSlackCommand rawBody).text with
            | .err _ => 0
            | .ok _ => 1) := by
  rcases deployBot_shape env hmacHex now isoNow duration "POST" rawBody
      (some signature) (some timestamp) api with
    ⟨hm, _⟩ |
    ⟨_, hcf, _⟩ |
    ⟨_, _, hhdr, _⟩ |
    ⟨_, _, ⟨s, t, reason, hs, ht, hinv⟩, _⟩ |
    ⟨_, _, _, hrest⟩
  · exact absurd rfl hm
  · rw [hconfig] at hcf; exact Bool.noConfusion hcf
  · exact absurd ⟨signature, timestamp, rfl, rfl⟩ hhdr
  · obtain rfl := Option.some.inj hs
    obtain rfl := Option.some.inj ht
    rw [hverify] at hinv
    exact VerificationResult.noConfusion hinv
  · rcases hrest with
      ⟨hauth, r, htr⟩ |
      ⟨hauth, hhelp, r, htr⟩ |
      ⟨hauth, hhelp, ⟨pe, hp⟩, r, htr⟩ |
      ⟨hauth, hhelp, service, environment, hp, hb⟩
    · rw [htr]; simp [countAudits, isAuditEvent, hauth]
    · rw [htr]; simp [countAudits, isAuditEvent, hauth, hhelp]
    · rw [htr]; simp [countAudits, isAuditEvent, hauth, hhelp, hp]
    · rcases hb with ⟨e, r, rd, htb, htr⟩ | ⟨b, r, rd, htb, htr⟩ <;>
        rw [htr] <;> simp [countAudits, isAuditEvent, hauth, hhelp, hp]

/-- Witness for the amended C1: the unauthorized request writes exactly the
one denied audit record the formula predicts. -/
theorem deployBot_audit_count_witness :
    countAudits (deployBot cexEnv cexHmac 100 cexIso 5 "POST" deniedBody
        (some "v0=mac") (some "100") (Except.ok JsValue.other)) =
      (if isUserAuthorized (ALLOWED_USERS cexEnv) (parseSlackCommand deniedBody).user_id = false
       then 1
       else if isHelpText (parseSlackCommand deniedBody).text = true then 0
       else match parseDeployCommand (parseSlackCommand deniedBody).text with
            | .err _ => 0
            | .ok _ => 1) :=
  deployBot_audit_count cexEnv cexHmac 100 cexIso 5 deniedBody "v0=mac" "100"
    (Except.ok JsValue.other) (by decide) (by decide)

/-- Claim C3: the build trigger is invoked only on a request whose
signature verification succeeded, whose user passed the authorization
check, and whose text parsed as a deploy command; and it is invoked exactly
once on such a run — the pipeline is linear, with no branching back. -/
theorem deployBot_build_guarded (env : Env) (hmacHex : String → String → String)
    (now : Int) (isoNow : String) (duration : Int) (method rawBody : String)
    (signatureHeader timestampHeader : Option String) (api : Except JsError JsValue)
    (p t : String)
    (hbuild : Event.build p t ∈ deployBot env hmacHex now isoNow duration method
        rawBody signatureHeader timestampHeader api) :
    (∃ s ts, signatureHeader = some s ∧ timestampHeader = some ts ∧
      verifySlackRequest hmacHex now (SLACK_SIGNING_SECRET env) s ts rawBody = .valid) ∧
    isUserAuthorized (ALLOWED_USERS env) (parseSlackCommand rawBody).user_id = true ∧
    (∃ v, parseDeployCommand (parseSlackCommand rawBody).text = .ok v) ∧
    countBuilds (deployBot env hmacHex now isoNow duration method rawBody
      signatureHeader timestampHeader api) = 1 := by
  rcases deployBot_shape env hmacHex now isoNow duration method rawBody
      signatureHeader timestampHeader api with
    ⟨_, r, htr⟩ |
    ⟨_, _, r, htr⟩ |
    ⟨_, _, _, r, htr⟩ |
    ⟨_, _, _, r, htr⟩ |
    ⟨_, _, hver, hrest⟩
  · rw [htr] at hbuild; simp at hbuild
  · rw [htr] at hbuild; simp at hbuild
  · rw [htr] at hbuild; simp at hbuild
  · rw [htr] at hbuild; simp at hbuild
  · rcases hrest with
      ⟨hauth, r, htr⟩ |
      ⟨hauth, hhelp, r, htr⟩ |
      ⟨hauth, hhelp, hpe, r, htr⟩ |
      ⟨hauth, hhelp, service, environment, hp, hb⟩
    · rw [htr] at hbuild; simp at hbuild
    · rw [htr] at hbuild; simp at hbuild
    · rw [htr] at hbuild; simp at hbuild
    · rcases hb with ⟨e, r, rd, htb, htr⟩ | ⟨b, r, rd, htb, htr⟩ <;>
        exact ⟨hver, hauth, ⟨(service, environment), hp⟩, by rw [htr]; rfl⟩

/-- Witness for C3: a verified, authorized deploy request does reach the
build invocation, and all three guards hold for it. -/
theorem deployBot_build_guarded_witness :
    (∃ s ts, (some "v0=mac" : Option String) = some s ∧
      (some "100" : Option String) = some ts ∧
      verifySlackRequest cexHmac 100 (SLACK_SIGNING_SECRET cexEnv) s ts
        deployBody = .valid) ∧
    isUserAuthorized (ALLOWED_USERS cexEnv) (parseSlackCommand deployBody).user_id = true ∧
    (∃ v, parseDeployCommand (parseSlackCommand deployBody).text = .ok v) ∧
    countBuilds (deployBot cexEnv cexHmac 100 cexIso 5 "POST" deployBody
      (some "v0=mac") (some "100") (Except.ok JsValue.other)) = 1 :=
  deployBot_build_guarded cexEnv cexHmac 100 cexIso 5 "POST" deployBody
    (some "v0=mac") (some "100") (Except.ok JsValue.other)
    "staging-project" "deploy-backend-api" (by decide)

/-- Claim C8: every audit record a run writes carries, unmodified, the user
id and user name of the command parsed once from the raw body, the ISO
timestamp taken for the record, and the measured duration — later
operations only read the parsed command, never update it. -/
theorem deployBot_audit_reads_parsed_command (env : Env)
    (hmacHex : String → String → String) (now : Int) (isoNow : String)
    (duration : Int) (method rawBody : String)
    (signatureHeader timestampHeader : Option String) (api : Except JsError JsValue)
    (a : AuditLog)
    (ha : a ∈ auditEntries (deployBot env hmacHex now isoNow duration method
        rawBody signatureHeader timestampHeader api)) :
    a.base.userId = (parseSlackCommand rawBody).user_id ∧
    a.base.userName = (parseSlackCommand rawBody).user_name ∧
    a.base.timestamp = isoNow ∧
    a.base.durationMs = duration := by
  rcases deployBot_shape env hmacHex now isoNow duration method rawBody
      signatureHeader timestampHeader api with
    ⟨_, r, htr⟩ |
    ⟨_, _, r, htr⟩ |
    ⟨_, _, _, r, htr⟩ |
    ⟨_, _, _, r, htr⟩ |
    ⟨_, _, _, hrest⟩
  · rw [htr] at ha; simp [auditEntries] at ha
  · rw [htr] at ha; simp [auditEntries] at ha
  · rw [htr] at ha; simp [auditEntries] at ha
  · rw [htr] at ha; simp [auditEntries] at ha
  · rcases hrest with
      ⟨hauth, r, htr⟩ |
      ⟨hauth, hhelp, r, htr⟩ |
      ⟨hauth, hhelp, hpe, r, htr⟩ |
      ⟨hauth, hhelp, service, environment, hp, hb⟩
    · rw [htr] at ha
      simp [auditEntries] at ha
      subst ha
      exact ⟨rfl, rfl, rfl, rfl⟩
    · rw [htr] at ha; simp [auditEntries] at ha
    · rw [htr] at ha; simp [auditEntries] at ha
    · rcases hb with ⟨e, r, rd, htb, htr⟩ | ⟨b, r, rd, htb, htr⟩ <;>
        (rw [htr] at ha; simp [auditEntries] at ha; subst ha; exact ⟨rfl, rfl, rfl, rfl⟩)

/-- Witness for C8: the denied audit record of the unauthorized request
carries exactly the parsed user id and name, the record timestamp and the
duration. -/
theorem deployBot_audit_reads_parsed_command_witness :
    cexDeniedAudit.base.userId = (parseSlackCommand deniedBody).user_id ∧
    cexDeniedAudit.base.userName = (parseSlackCommand deniedBody).user_name ∧
    cexDeniedAudit.base.timestamp = cexIso ∧
    cexDeniedAudit.base.durationMs = 5 :=
  deployBot_audit_reads_parsed_command cexEnv cexHmac 100 cexIso 5 "POST"
    deniedBody (some "v0=mac") (some "100") (Except.ok JsValue.other)
    cexDeniedAudit (by decide)
